import Mathlib

/-
Verification of the YumBackend repository/package operations
(avocado/utils/software_manager/backends/yum.py).

The configuration file is modelled as the in-memory state of the lazily
created configparser: an ordered list of sections, each a name with an
ordered association list of option/value pairs (option keys stored
lowercased, as the configparser option transform does). External effects
are modelled by explicit parameters: the random string generator as a
stream, loop termination by fuel, success of the temporary-file write and
privileged copy by booleans, and the process runner as a function from
command strings to an Except value whose error constructor is the
distinguished error raised on nonzero exit status.
-/

namespace YumBackend

/-- One section of the INI-style repository configuration: its name and
the ordered option/value pairs it stores. -/
structure Sect where
  name : String
  opts : List (String × String)
deriving Repr, DecidableEq

/-- The repository configuration held by the configparser: an ordered
list of sections. -/
abbrev Config := List Sect

/-- The configparser option transform: option names are lowercased before
storage and lookup. -/
def lowerString (s : String) : String :=
  String.mk (s.data.map Char.toLower)

/-- Setting a key in an option dictionary: overwrite the value when the
key is present, otherwise append the pair at the end (Python dict
assignment semantics, which configparser uses for option storage). -/
def setOpt (opts : List (String × String)) (key value : String) :
    List (String × String) :=
  if opts.any (fun p => p.1 = key) then
    opts.map (fun p => if p.1 = key then (key, value) else p)
  else
    opts ++ [(key, value)]

/-- configparser set(section, option, value): the option key is passed
through the option transform (lowercasing) before being stored. -/
def sectSet (cfg : Config) (sname key value : String) : Config :=
  cfg.map (fun s =>
    if s.name = sname then Sect.mk s.name (setOpt s.opts (lowerString key) value) else s)

/-- configparser has_section. -/
def hasSection (cfg : Config) (sname : String) : Bool :=
  cfg.any (fun s => s.name = sname)

/-- The per-section test performed by the scanning loops of add_repo
(lines 119 to 122) and remove_repo (lines 157 to 160): some stored option
is named baseurl and carries exactly the given url. -/
def sectHasBaseurl (s : Sect) (url : String) : Bool :=
  s.opts.any (fun p => p.1 = "baseurl" && p.2 = url)

/-- Number of sections whose baseurl option equals url. -/
def countBaseurl (cfg : Config) (url : String) : Nat :=
  (cfg.filter (fun s => sectHasBaseurl s url)).length

/-- Python dict update: repo_options.update(opt_params), key comparison
case sensitive at this point (lowercasing only happens later in set). -/
def updateDict (base upd : List (String × String)) : List (String × String) :=
  upd.foldl (fun acc p => setOpt acc p.1 p.2) base

/-- The section-name loop of add_repo (lines 125 to 129): iteration i
draws the random suffix rand i, forms the candidate
software_manager_<suffix> and stops at the first candidate that is not an
existing section. Fuel bounds the number of iterations; none models the
loop not terminating within the given fuel. -/
def pickSectionName (cfg : Config) (rand : Nat → String) : Nat → Nat → Option String
  | _, 0 => none
  | i, fuel + 1 =>
    let candidate := "software_manager" ++ "_" ++ rand i
    if hasSection cfg candidate then pickSectionName cfg rand (i + 1) fuel
    else some candidate

/-- add_repo (lines 108 to 146). Parameters beyond the Python ones: rand
is the random string generator, fuel bounds the section-name loop,
writeOk tells whether the temporary-file write and privileged copy
succeed. On a write failure the OSError or CmdError is caught and False
returned, but the configuration mutations performed before the write are
kept in memory, so the result pairs the returned boolean with the updated
in-memory configuration. none models the name loop exhausting its fuel. -/
def add_repo (cfg : Config) (url : String) (opt_params : List (String × String))
    (rand : Nat → String) (fuel : Nat) (writeOk : Bool) :
    Option (Bool × Config) :=
  let repo_options := updateDict [("enabled", "1"), ("gpgcheck", "0")] opt_params
  if cfg.any (fun s => sectHasBaseurl s url) then some (true, cfg)
  else
    match pickSectionName cfg rand 0 fuel with
    | none => none
    | some section_name =>
      let cfg1 := cfg ++ [Sect.mk section_name []]
      let cfg2 := sectSet cfg1 section_name "name" "Avocado managed repository"
      let cfg3 := sectSet cfg2 section_name "baseurl" url
      let cfg4 := repo_options.foldl (fun c p => sectSet c section_name p.1 p.2) cfg3
      some (writeOk, cfg4)

/-- remove_repo (lines 148 to 169). tmpOk: creation of the temporary file
succeeds (it happens before the removal loop, so on failure the
configuration is unchanged and False is returned); writeOk: the write and
privileged copy succeed. The loop iterates over a snapshot of the section
list and removes every section whose baseurl equals url; True is returned
whether or not any section matched. -/
def remove_repo (cfg : Config) (url : String) (tmpOk writeOk : Bool) :
    Bool × Config :=
  if tmpOk then
    (writeOk, cfg.filter (fun s => !sectHasBaseurl s url))
  else
    (false, cfg)

/-- The distinguished error the process runner raises on nonzero exit
status (process.CmdError). -/
structure CmdError where
  status : Nat
deriving Repr, DecidableEq

/-- The external process runner (process.system with ignore_status False):
ok when the invoked process exits with status zero, error with the
distinguished error otherwise. -/
abbrev Runner := String → Except CmdError Unit

/-- Modelled from the spec: the shared runCommand helper of the base backend
class is not part of this file set; sections 7 and 8 of the specification
describe its behaviour. The command is delegated to the process runner; a
process-level failure (the distinguished error raised on nonzero exit) is
caught, logged and turned into the failure sentinel False, while success
returns True. The Except result type records whether an exception escapes
to the caller. -/
def runCommand (r : Runner) (cmd : String) : Except CmdError Bool :=
  match r cmd with
  | .ok _ => .ok true
  | .error _ => .ok false

/-- The backend state that command construction reads: the resolved path
of the tool (utils_path.find_command) and the transient options, which
are empty or the transient flag depending on the image-mode probe done at
initialization (lines 46 to 49). -/
structure Backend where
  toolPath : String
  transient_opts : String
deriving Repr, DecidableEq

/-- base_command (line 42): resolved tool path followed by the -y flag. -/
def base_command (b : Backend) : String :=
  b.toolPath ++ " -y "

/-- install (lines 92 to 97). -/
def install (b : Backend) (r : Runner) (name : String) : Except CmdError Bool :=
  runCommand r (base_command b ++ "install" ++ " " ++ name ++ b.transient_opts)

/-- remove (lines 99 to 106). -/
def remove (b : Backend) (r : Runner) (name : String) : Except CmdError Bool :=
  runCommand r (base_command b ++ "erase" ++ " " ++ name ++ b.transient_opts)

/-- upgrade (lines 171 to 185): with no name, or a falsy empty name, the
whole system is updated, otherwise the named package. -/
def upgrade (b : Backend) (r : Runner) (name : Option String) :
    Except CmdError Bool :=
  if name.getD "" = "" then
    runCommand r (base_command b ++ "update" ++ b.transient_opts)
  else
    runCommand r (base_command b ++ "update" ++ " " ++ name.getD "" ++ b.transient_opts)

/-- A package object returned by the native yum API; the str field is its
string form (what str() returns on it). -/
structure Pkg where
  str : String
deriving Repr, DecidableEq

/-- The native yum scripting handle: searchPackageProvides takes glob
patterns and either returns the providing packages or raises (any
exception, modelled as a message). -/
structure YumHandle where
  searchPackageProvides : List String → Except String (List Pkg)

/-- provides (lines 187 to 211): the disabled sentinel none when the
native handle is absent; otherwise query the handle with the
glob-qualified capability name, treat a raised exception as an empty
result, and return the string form of the first match, or none when
there is no match. -/
def provides (yum_base : Option YumHandle) (name : String) : Option String :=
  match yum_base with
  | none => none
  | some h =>
    let d_provides :=
      match h.searchPackageProvides ["*/" ++ name] with
      | .ok l => l
      | .error _ => []
    match d_provides with
    | [] => none
    | p :: _ => some p.str

/-- The collaborators and externally determined outcomes get_source
consults: the shared rpm capabilities of the base class (check_installed,
rpm_install, build_dep, prepare_source), the outcome of the install of a
helper package, the outcome of the downloader run (the file names placed
in the temporary directory, or the process error it raised), the HOME
directory and the temporary directory path handed out by mkdtemp. -/
structure SourceEnv where
  check_installed : String → Bool
  installOk : String → Bool
  download : Except CmdError (List String)
  rpm_install : String → Bool
  build_dep : String → Bool
  prepare_source : String → String → Option String → String
  home : String
  tmp_path : String

/-- Outcome of get_source: the returned string and the directories the
finally clause removed. -/
structure SourceResult where
  result : String
  removed_dirs : List String
deriving Repr, DecidableEq

/-- get_source (lines 230 to 281): create a temporary directory; abort
with the empty-string sentinel when dest_path is missing, or when a
helper package is neither installed nor installable, or when the
downloader raises (caught), or when the download did not yield exactly
one src.rpm file, or when installing the source rpm or its build
dependencies fails; otherwise delegate to prepare_source. The finally
clause removes the temporary directory on every path. -/
def get_source (env : SourceEnv) (name : String) (dest_path : Option String)
    (build_option : Option String) : SourceResult :=
  let path := env.tmp_path
  let body : String :=
    match dest_path with
    | none => ""
    | some dp =>
      if ["rpm-build", "yum-utils"].any
          (fun p => !env.check_installed p && !env.installOk p) then
        ""
      else
        match env.download with
        | .error _ => ""
        | .ok files =>
          match files.filter (fun f => f.endsWith ".src.rpm") with
          | [f] =>
            if env.rpm_install (path ++ "/" ++ f) then
              let spec_path := env.home ++ "/rpmbuild/SPECS/" ++ name ++ ".spec"
              if env.build_dep spec_path then
                env.prepare_source spec_path dp build_option
              else ""
            else ""
          | _ => ""
  SourceResult.mk body [path]

/-- A fixed random-string stream used for concrete evaluations. -/
def demoRand : Nat → String := fun _ => "abcd"

/-- The configuration add_repo produces from an empty configuration for
the url http repo with no caller options and the demoRand stream. -/
def demoCfg1 : Config :=
  [Sect.mk "software_manager_abcd"
    [("name", "Avocado managed repository"), ("baseurl", "http://repo"),
     ("enabled", "1"), ("gpgcheck", "0")]]

/-- A process runner that always fails with exit status 1. -/
def failRunner : Runner := fun _ => .error (CmdError.mk 1)

/-- A process runner that always exits zero. -/
def okRunner : Runner := fun _ => .ok ()

/-- A concrete backend state for evaluations. -/
def demoB : Backend := Backend.mk "/usr/bin/yum" ""

/-- A random stream whose first draw collides with an existing section. -/
def demoRand2 : Nat → String := fun n => if n = 0 then "abcd" else "wxyz"

/-- A configuration already holding the section the first draw collides
with. -/
def demoCfgColl : Config := [Sect.mk "software_manager_abcd" []]

/-- A configuration with one section referencing a different URL. -/
def demoCfgOther : Config := [Sect.mk "s1" [("baseurl", "http://other")]]

/-- A native handle whose query returns one provider. -/
def demoHandleOk : YumHandle := YumHandle.mk (fun _ => Except.ok [Pkg.mk "bash-5.2"])

/-- A native handle whose query raises. -/
def demoHandleErr : YumHandle := YumHandle.mk (fun _ => Except.error "boom")

/-- A native handle whose query returns no providers. -/
def demoHandleEmpty : YumHandle := YumHandle.mk (fun _ => Except.ok [])

theorem pickSectionName_fresh (cfg : Config) (rand : Nat → String) (i fuel : Nat)
    (s : String) (h : pickSectionName cfg rand i fuel = some s) :
    hasSection cfg s = false := by
  induction fuel generalizing i with
  | zero => simp [pickSectionName] at h
  | succ n ih =>
    simp only [pickSectionName] at h
    by_cases hc : hasSection cfg ("software_manager" ++ "_" ++ rand i) = true
    · rw [if_pos hc] at h
      exact ih _ h
    · rw [if_neg hc] at h
      obtain rfl := Option.some.inj h
      exact Bool.not_eq_true _ ▸ Bool.of_not_eq_true hc

theorem hasSection_eq_false_iff (cfg : Config) (sname : String) :
    hasSection cfg sname = false ↔ ∀ s ∈ cfg, s.name ≠ sname := by
  simp [hasSection, List.any_eq_false]

theorem map_any_baseurl (o : List (String × String)) (k v url : String)
    (hk : k ≠ "baseurl") :
    (o.map (fun p => if p.1 = k then (k, v) else p)).any
        (fun p => p.1 = "baseurl" && p.2 = url) =
      o.any (fun p => p.1 = "baseurl" && p.2 = url) := by
  induction o with
  | nil => rfl
  | cons q qs ih =>
    simp only [List.map_cons, List.any_cons, ih]
    by_cases hq : q.1 = k
    · simp [hq, hk]
    · simp [hq]

theorem setOpt_any_baseurl (o : List (String × String)) (k v url : String)
    (hk : k ≠ "baseurl") :
    (setOpt o k v).any (fun p => p.1 = "baseurl" && p.2 = url) =
      o.any (fun p => p.1 = "baseurl" && p.2 = url) := by
  unfold setOpt
  split
  · exact map_any_baseurl o k v url hk
  · simp [hk]

theorem foldl_setOpt_any_baseurl (opts : List (String × String))
    (o : List (String × String)) (url : String)
    (h : ∀ p ∈ opts, lowerString p.1 ≠ "baseurl") :
    (opts.foldl (fun acc p => setOpt acc (lowerString p.1) p.2) o).any
        (fun p => p.1 = "baseurl" && p.2 = url) =
      o.any (fun p => p.1 = "baseurl" && p.2 = url) := by
  induction opts generalizing o with
  | nil => rfl
  | cons p ps ih =>
    rw [List.foldl_cons, ih _ (fun q hq => h q (List.mem_cons_of_mem _ hq)),
      setOpt_any_baseurl _ _ _ _ (h p (List.mem_cons_self _ _))]

theorem sectSet_append (cfg : Config) (sname : String) (o : List (String × String))
    (k v : String) (h : ∀ s ∈ cfg, s.name ≠ sname) :
    sectSet (cfg ++ [Sect.mk sname o]) sname k v =
      cfg ++ [Sect.mk sname (setOpt o (lowerString k) v)] := by
  unfold sectSet
  rw [List.map_append]
  congr 1
  · have hcong : ∀ s ∈ cfg,
        (if s.name = sname then Sect.mk s.name (setOpt s.opts (lowerString k) v) else s)
          = id s := by
      intro s hs
      rw [if_neg (h s hs)]
      rfl
    rw [List.map_congr_left hcong, List.map_id]
  · simp

theorem foldl_sectSet_append (opts : List (String × String)) (cfg : Config)
    (sname : String) (o : List (String × String))
    (h : ∀ s ∈ cfg, s.name ≠ sname) :
    opts.foldl (fun c p => sectSet c sname p.1 p.2) (cfg ++ [Sect.mk sname o]) =
      cfg ++ [Sect.mk sname
        (opts.foldl (fun acc p => setOpt acc (lowerString p.1) p.2) o)] := by
  induction opts generalizing o with
  | nil => rfl
  | cons p ps ih =>
    rw [List.foldl_cons, sectSet_append cfg sname o p.1 p.2 h, List.foldl_cons, ih]

theorem mem_setOpt_key (o : List (String × String)) (k v : String)
    (p : String × String) (hp : p ∈ setOpt o k v) : p ∈ o ∨ p.1 = k := by
  unfold setOpt at hp
  split at hp
  · obtain ⟨q, hq, hpq⟩ := List.mem_map.mp hp
    by_cases h : q.1 = k
    · right
      rw [← hpq, if_pos h]
    · left
      rwa [← hpq, if_neg h]
  · rcases List.mem_append.mp hp with h | h
    · exact Or.inl h
    · right
      simp only [List.mem_singleton] at h
      rw [h]

theorem mem_updateDict_key (upd base : List (String × String)) (p : String × String)
    (hp : p ∈ updateDict base upd) :
    (∃ q ∈ base, p.1 = q.1) ∨ ∃ q ∈ upd, p.1 = q.1 := by
  induction upd generalizing base with
  | nil => exact Or.inl ⟨p, hp, rfl⟩
  | cons u us ih =>
    simp only [updateDict, List.foldl_cons] at hp
    rcases ih (setOpt base u.1 u.2) hp with ⟨q, hq, hpq⟩ | ⟨q, hq, hpq⟩
    · rcases mem_setOpt_key base u.1 u.2 q hq with hq2 | hq2
      · exact Or.inl ⟨q, hq2, hpq⟩
      · exact Or.inr ⟨u, List.mem_cons_self _ _, hpq.trans hq2⟩
    · exact Or.inr ⟨q, List.mem_cons_of_mem _ hq, hpq⟩

theorem updateDict_keys_not_baseurl (opt_params : List (String × String))
    (h : ∀ p ∈ opt_params, lowerString p.1 ≠ "baseurl") :
    ∀ p ∈ updateDict [("enabled", "1"), ("gpgcheck", "0")] opt_params,
      lowerString p.1 ≠ "baseurl" := by
  intro p hp
  rcases mem_updateDict_key _ _ p hp with ⟨q, hq, hpq⟩ | ⟨q, hq, hpq⟩
  · rw [hpq]
    simp only [List.mem_cons, List.not_mem_nil, or_false] at hq
    rcases hq with rfl | rfl <;> decide
  · rw [hpq]
    exact h q hq

theorem countBaseurl_eq_zero_iff (cfg : Config) (url : String) :
    countBaseurl cfg url = 0 ↔ ∀ s ∈ cfg, sectHasBaseurl s url = false := by
  simp [countBaseurl, List.length_eq_zero, List.filter_eq_nil_iff]

theorem any_eq_false_of_count_zero (cfg : Config) (url : String)
    (h : countBaseurl cfg url = 0) :
    cfg.any (fun s => sectHasBaseurl s url) = false := by
  rw [List.any_eq_false]
  intro s hs
  rw [(countBaseurl_eq_zero_iff cfg url).mp h s hs]
  simp

/-- C1: for every URL, calling add_repo twice with the same URL is
idempotent. Starting from a configuration with no section referencing the
URL and caller options that do not override the baseurl option, if the
first call returns, the second call returns True through the
existing-baseurl check without touching the configuration, and the
configuration has gained exactly one section referencing the URL. -/
theorem add_repo_idempotent (cfg : Config) (url : String)
    (opt_params : List (String × String)) (rand rand2 : Nat → String)
    (fuel fuel2 : Nat) (w1 w2 : Bool) (b1 : Bool) (cfg1 : Config)
    (hnomatch : countBaseurl cfg url = 0)
    (hopts : ∀ p ∈ opt_params, lowerString p.1 ≠ "baseurl")
    (h1 : add_repo cfg url opt_params rand fuel w1 = some (b1, cfg1)) :
    add_repo cfg1 url opt_params rand2 fuel2 w2 = some (true, cfg1) ∧
    countBaseurl cfg1 url = 1 ∧
    cfg1.length = cfg.length + 1 := by
  have hany := any_eq_false_of_count_zero cfg url hnomatch
  simp only [add_repo, hany, Bool.false_eq_true, if_false] at h1
  cases hpick : pickSectionName cfg rand 0 fuel with
  | none => rw [hpick] at h1; exact absurd h1 (by simp)
  | some sname =>
    rw [hpick] at h1
    simp only [Option.some.injEq, Prod.mk.injEq] at h1
    have hfresh : ∀ s ∈ cfg, s.name ≠ sname :=
      (hasSection_eq_false_iff cfg sname).mp
        (pickSectionName_fresh cfg rand 0 fuel sname hpick)
    rw [sectSet_append cfg sname [] "name" "Avocado managed repository" hfresh] at h1
    rw [sectSet_append cfg sname _ "baseurl" url hfresh] at h1
    rw [foldl_sectSet_append _ cfg sname _ hfresh] at h1
    obtain ⟨hb, hcfg⟩ := h1
    subst hcfg
    set fo := List.foldl (fun acc p => setOpt acc (lowerString p.1) p.2)
      (setOpt (setOpt [] (lowerString "name") "Avocado managed repository")
        (lowerString "baseurl") url)
      (updateDict [("enabled", "1"), ("gpgcheck", "0")] opt_params) with hfo
    have l1 : lowerString "name" = "name" := rfl
    have l2 : lowerString "baseurl" = "baseurl" := rfl
    have hsect : sectHasBaseurl (Sect.mk sname fo) url = true := by
      unfold sectHasBaseurl
      rw [hfo]
      rw [foldl_setOpt_any_baseurl _ _ url (updateDict_keys_not_baseurl opt_params hopts)]
      rw [l1, l2]
      simp [setOpt]
    refine ⟨?_, ?_, ?_⟩
    · have hany1 : ((cfg ++ [Sect.mk sname fo]).any fun s => sectHasBaseurl s url) = true := by
        rw [List.any_append]
        simp [hsect]
      simp [add_repo, hany1]
    · unfold countBaseurl
      rw [List.filter_append]
      have hnil : cfg.filter (fun s => sectHasBaseurl s url) = [] := by
        rw [List.filter_eq_nil_iff]
        intro s hs
        simp [(countBaseurl_eq_zero_iff cfg url).mp hnomatch s hs]
      rw [hnil]
      simp [hsect]
    · simp

/-- Witness for C1 at a concrete input: empty starting configuration,
one URL, no caller options. -/
theorem add_repo_idempotent_witness :
    add_repo demoCfg1 "http://repo" [] demoRand 1 true = some (true, demoCfg1) ∧
    countBaseurl demoCfg1 "http://repo" = 1 ∧
    demoCfg1.length = ([] : Config).length + 1 :=
  add_repo_idempotent [] "http://repo" [] demoRand demoRand 1 1 true true true
    demoCfg1 (by decide) (by simp) (by decide)

/-- C2: for every URL, after add_repo for that URL returns, remove_repo
for the same URL (with the temporary file available) leaves zero sections
whose baseurl option equals the URL: the removal loop deletes every
matching section. -/
theorem remove_repo_after_add_repo (cfg : Config) (url : String)
    (opt_params : List (String × String)) (rand : Nat → String) (fuel : Nat)
    (w1 w2 : Bool) (b1 : Bool) (cfg1 : Config)
    (h1 : add_repo cfg url opt_params rand fuel w1 = some (b1, cfg1)) :
    countBaseurl (remove_repo cfg1 url true w2).2 url = 0 := by
  have h2 : (remove_repo cfg1 url true w2).2 =
      cfg1.filter (fun s => !sectHasBaseurl s url) := rfl
  rw [h2, countBaseurl_eq_zero_iff]
  intro s hs
  have h3 := List.of_mem_filter hs
  simpa using h3

/-- Witness for C2 at a concrete input: the configuration produced by
add_repo on an empty configuration. -/
theorem remove_repo_after_add_repo_witness :
    countBaseurl (remove_repo demoCfg1 "http://repo" true true).2 "http://repo" = 0 :=
  remove_repo_after_add_repo [] "http://repo" [] demoRand 1 true true true
    demoCfg1 (by decide)

/-- C6: every section name generated by the add_repo name loop is
distinct from all section names already present in the configuration: the
loop only stops at a candidate that is not an existing section. -/
theorem add_repo_generated_name_unique (cfg : Config) (rand : Nat → String)
    (i fuel : Nat) (s : String)
    (h : pickSectionName cfg rand i fuel = some s) :
    hasSection cfg s = false ∧ ∀ t ∈ cfg, t.name ≠ s :=
  ⟨pickSectionName_fresh cfg rand i fuel s h,
   (hasSection_eq_false_iff cfg s).mp (pickSectionName_fresh cfg rand i fuel s h)⟩

/-- Witness for C6 at a concrete input: the first candidate collides, the
loop retries and the name it returns is not an existing section. -/
theorem add_repo_generated_name_unique_witness :
    hasSection demoCfgColl "software_manager_wxyz" = false :=
  (add_repo_generated_name_unique demoCfgColl demoRand2 0 2
    "software_manager_wxyz" (by decide)).1

/-- C10: remove_repo returns True even when no section references the
URL: with the temporary file and the privileged copy succeeding it
rewrites the unchanged configuration and reports True, and False is
returned only when the temporary-file creation or the write and copy
fail. -/
theorem remove_repo_no_match_true (cfg : Config) (url : String)
    (hnomatch : ∀ s ∈ cfg, sectHasBaseurl s url = false) :
    remove_repo cfg url true true = (true, cfg) ∧
    ∀ tmpOk writeOk : Bool,
      (remove_repo cfg url tmpOk writeOk).1 = false →
        tmpOk = false ∨ writeOk = false := by
  constructor
  · unfold remove_repo
    rw [if_pos rfl]
    have hall : cfg.filter (fun s => !sectHasBaseurl s url) = cfg := by
      rw [List.filter_eq_self]
      intro s hs
      simp [hnomatch s hs]
    rw [hall]
  · intro t w h
    cases t
    · exact Or.inl rfl
    · cases w
      · exact Or.inr rfl
      · simp [remove_repo] at h

/-- Witness for C10 at a concrete input: no section matches and
remove_repo still returns True with the configuration unchanged. -/
theorem remove_repo_no_match_true_witness :
    remove_repo demoCfgOther "http://repo" true true = (true, demoCfgOther) :=
  (remove_repo_no_match_true demoCfgOther "http://repo" (by decide)).1

/-- C3: with a process runner that always fails (raises the distinguished
error on nonzero exit), install, remove and upgrade all return the
failure sentinel False and no exception escapes to the caller. -/
theorem cmd_ops_failure_sentinel (b : Backend) (r : Runner) (name : String)
    (hfail : ∀ c, ∃ e, r c = Except.error e) :
    install b r name = Except.ok false ∧
    remove b r name = Except.ok false ∧
    upgrade b r (some name) = Except.ok false ∧
    upgrade b r none = Except.ok false := by
  have hrc : ∀ c, runCommand r c = Except.ok false := by
    intro c
    obtain ⟨e, he⟩ := hfail c
    unfold runCommand
    rw [he]
  refine ⟨?_, ?_, ?_, ?_⟩
  · unfold install; exact hrc _
  · unfold remove; exact hrc _
  · unfold upgrade; split <;> exact hrc _
  · unfold upgrade; split <;> exact hrc _

/-- Witness for C3 at a concrete input: the runner failing with exit
status 1 on every command. -/
theorem cmd_ops_failure_sentinel_witness :
    install demoB failRunner "foo" = Except.ok false ∧
    remove demoB failRunner "foo" = Except.ok false ∧
    upgrade demoB failRunner (some "foo") = Except.ok false ∧
    upgrade demoB failRunner none = Except.ok false :=
  cmd_ops_failure_sentinel demoB failRunner "foo"
    (fun _ => ⟨CmdError.mk 1, rfl⟩)

/-- C4 counterexample: with a runner that always raises, install does not
propagate the runner error to the caller; it returns the ok false
sentinel, so the failure-propagation half of the claim is false at this
input. -/
theorem install_failure_not_propagated :
    install demoB failRunner "foo" = Except.ok false := rfl

theorem runCommand_ok_iff (r : Runner) (c : String) :
    (runCommand r c = Except.ok true ↔ r c = Except.ok ()) ∧
    ∀ e, r c = Except.error e → runCommand r c = Except.ok false := by
  constructor
  · cases hr : r c with
    | ok u => cases u; simp [runCommand, hr]
    | error e => simp [runCommand, hr]
  · intro e he
    simp [runCommand, he]

/-- C4 amended: for install, remove and upgrade (both with and without a
package name), success (ok true) holds exactly when the delegated process
exits with status zero; when the process fails, the runner error is
caught inside the shared command helper and the operation returns the ok
false sentinel to the caller instead of propagating the error. -/
theorem cmd_ops_success_iff_exit_zero (b : Backend) (r : Runner) (n : String) :
    (install b r n = Except.ok true ↔
      r (base_command b ++ "install" ++ " " ++ n ++ b.transient_opts) = Except.ok ()) ∧
    (∀ e, r (base_command b ++ "install" ++ " " ++ n ++ b.transient_opts) = Except.error e →
      install b r n = Except.ok false) ∧
    (remove b r n = Except.ok true ↔
      r (base_command b ++ "erase" ++ " " ++ n ++ b.transient_opts) = Except.ok ()) ∧
    (∀ e, r (base_command b ++ "erase" ++ " " ++ n ++ b.transient_opts) = Except.error e →
      remove b r n = Except.ok false) ∧
    (upgrade b r none = Except.ok true ↔
      r (base_command b ++ "update" ++ b.transient_opts) = Except.ok ()) ∧
    (∀ e, r (base_command b ++ "update" ++ b.transient_opts) = Except.error e →
      upgrade b r none = Except.ok false) ∧
    (upgrade b r (some n) = Except.ok true ↔
      r (if n = "" then base_command b ++ "update" ++ b.transient_opts
         else base_command b ++ "update" ++ " " ++ n ++ b.transient_opts) = Except.ok ()) ∧
    (∀ e, r (if n = "" then base_command b ++ "update" ++ b.transient_opts
         else base_command b ++ "update" ++ " " ++ n ++ b.transient_opts) = Except.error e →
      upgrade b r (some n) = Except.ok false) := by
  have hup : upgrade b r (some n) =
      runCommand r (if n = "" then base_command b ++ "update" ++ b.transient_opts
        else base_command b ++ "update" ++ " " ++ n ++ b.transient_opts) := by
    unfold upgrade
    rw [Option.getD_some]
    by_cases hn : n = ""
    · rw [if_pos hn, if_pos hn]
    · rw [if_neg hn, if_neg hn]
  refine ⟨?_, ?_, ?_, ?_, ?_, ?_, ?_, ?_⟩
  · exact (runCommand_ok_iff r _).1
  · exact (runCommand_ok_iff r _).2
  · exact (runCommand_ok_iff r _).1
  · exact (runCommand_ok_iff r _).2
  · exact (runCommand_ok_iff r _).1
  · exact (runCommand_ok_iff r _).2
  · rw [hup]
    exact (runCommand_ok_iff r _).1
  · intro e he
    rw [hup]
    exact (runCommand_ok_iff r _).2 e he

/-- Witness for C4 amended at concrete inputs: a runner exiting zero
gives ok true, a runner failing with status 1 gives ok false. -/
theorem cmd_ops_success_iff_exit_zero_witness :
    install demoB okRunner "foo" = Except.ok true ∧
    install demoB failRunner "foo" = Except.ok false ∧
    upgrade demoB okRunner (some "foo") = Except.ok true ∧
    upgrade demoB failRunner (some "foo") = Except.ok false :=
  ⟨(cmd_ops_success_iff_exit_zero demoB okRunner "foo").1.mpr rfl,
   (cmd_ops_success_iff_exit_zero demoB failRunner "foo").2.1 (CmdError.mk 1) rfl,
   (cmd_ops_success_iff_exit_zero demoB okRunner "foo").2.2.2.2.2.2.1.mpr rfl,
   (cmd_ops_success_iff_exit_zero demoB failRunner "foo").2.2.2.2.2.2.2 (CmdError.mk 1) rfl⟩

/-- C5: install, remove and upgrade build their command line from the
fixed template tool -y verb name transient-flag, with the verbs install,
erase and update respectively, and delegate it to the process runner
through the shared command helper. -/
theorem cmd_template (b : Backend) (r : Runner) (n : String) (hn : n ≠ "") :
    install b r n =
      runCommand r (b.toolPath ++ " -y " ++ "install" ++ " " ++ n ++ b.transient_opts) ∧
    remove b r n =
      runCommand r (b.toolPath ++ " -y " ++ "erase" ++ " " ++ n ++ b.transient_opts) ∧
    upgrade b r (some n) =
      runCommand r (b.toolPath ++ " -y " ++ "update" ++ " " ++ n ++ b.transient_opts) := by
  refine ⟨rfl, rfl, ?_⟩
  unfold upgrade
  rw [Option.getD_some, if_neg hn]
  rfl

/-- Witness for C5 at a concrete input. -/
theorem cmd_template_witness :
    install demoB okRunner "foo" =
      runCommand okRunner
        (demoB.toolPath ++ " -y " ++ "install" ++ " " ++ "foo" ++ demoB.transient_opts) ∧
    remove demoB okRunner "foo" =
      runCommand okRunner
        (demoB.toolPath ++ " -y " ++ "erase" ++ " " ++ "foo" ++ demoB.transient_opts) ∧
    upgrade demoB okRunner (some "foo") =
      runCommand okRunner
        (demoB.toolPath ++ " -y " ++ "update" ++ " " ++ "foo" ++ demoB.transient_opts) :=
  cmd_template demoB okRunner "foo" (by decide)

/-- C7: whenever the native yum scripting handle is unavailable, provides
returns the disabled sentinel none, for every capability name, querying
nothing. -/
theorem provides_disabled_without_handle (name : String) :
    provides none name = none := rfl

/-- C8: with the native handle available, provides queries it for
providers of the glob-qualified pattern and returns the string form of
the first match; it returns the no-match sentinel none both when the
query raises and when the result is empty. -/
theorem provides_first_match (h : YumHandle) (name : String) :
    (∀ p l, h.searchPackageProvides ["*/" ++ name] = Except.ok (p :: l) →
      provides (some h) name = some p.str) ∧
    (∀ e, h.searchPackageProvides ["*/" ++ name] = Except.error e →
      provides (some h) name = none) ∧
    (h.searchPackageProvides ["*/" ++ name] = Except.ok [] →
      provides (some h) name = none) := by
  refine ⟨?_, ?_, ?_⟩
  · intro p l hq
    simp [provides, hq]
  · intro e hq
    simp [provides, hq]
  · intro hq
    simp [provides, hq]

/-- Witness for C8 at concrete inputs: a handle with one provider, a
raising handle, and a handle with no providers. -/
theorem provides_first_match_witness :
    provides (some demoHandleOk) "sh" = some "bash-5.2" ∧
    provides (some demoHandleErr) "sh" = none ∧
    provides (some demoHandleEmpty) "sh" = none :=
  ⟨(provides_first_match demoHandleOk "sh").1 (Pkg.mk "bash-5.2") [] rfl,
   (provides_first_match demoHandleErr "sh").2.1 "boom" rfl,
   (provides_first_match demoHandleEmpty "sh").2.2 rfl⟩

/-- C9: for every package name and build option, get_source with a
missing dest_path returns the empty-string sentinel rather than raising,
and the temporary directory it created is removed on exit by the finally
clause. -/
theorem get_source_no_dest_path (env : SourceEnv) (name : String)
    (build_option : Option String) :
    get_source env name none build_option = SourceResult.mk "" [env.tmp_path] := rfl

end YumBackend
